import Mathlib

/-!
Verification development for the `icexin/log15` repository.

Part 1 embeds `timerotatewriter.go` (the time-based rotating file writer).
The filesystem is modelled as a partial map from paths to byte lists; each
Go I/O primitive (open, close, rename, write) may be forced to fail through
a fault-injection environment `Env`, mirroring the error returns of the Go
`os` package.  A `none` result models a Go runtime panic (nil-interface
dereference); `some` carries the resulting state together with the values
the Go function returns.  Machine integers are modelled as `Int` (the Go
code uses `int`/`int64` and never overflows in the scenarios considered).
Time is passed explicitly: every place the Go code calls `time.Now().Unix()`
receives the parameter `now`.  The time zone used by `time.Unix(t,0).Format`
is fixed to UTC in the model.

Part 2 embeds the record/handler pipeline.  Its implementation file is not
part of the sources (only its test file `src/unnamed/part_000` is), so those
definitions are modelled from the spec and pinned by the assertions of the
tests, as indicated in their doc comments.
-/

namespace Log15

/-- File contents: a sequence of bytes (each a `Nat` < 256 in practice). -/
abbrev Bytes := List Nat

/-- The filesystem: a partial map from path to file contents. -/
abbrev Fs := String → Option Bytes

/-- The empty filesystem. -/
def Fs.empty : Fs := fun _ => none

/-- Errors returned by the modelled I/O primitives. -/
inductive Err where
  | openErr
  | closeErr
  | renameErr
  | writeErr
deriving DecidableEq, Repr

/-- Fault-injection environment: selects which Go I/O primitives fail.
`os.OpenFile`, `file.Close`, `os.Rename` and `file.Write` each consult
their flag. -/
structure Env where
  openFails : Bool := false
  closeFails : Bool := false
  renameFails : Bool := false
  writeFails : Bool := false
deriving DecidableEq, Repr

/-- The environment in which every I/O primitive succeeds. -/
def noFail : Env := {}

/-- One decimal digit character: `'0' + n % 10`. -/
def dch (n : Nat) : Char := Char.ofNat (48 + n % 10)

/-- Two-digit zero-padded decimal rendering (faithful for `n < 100`,
which holds for months, days, hours and minutes). -/
def pad2 (n : Nat) : String := String.mk [dch (n / 10), dch n]

/-- Four-digit zero-padded decimal rendering (faithful for `n < 10000`,
which holds for the years reachable here). -/
def pad4 (n : Nat) : String :=
  String.mk [dch (n / 1000), dch (n / 100), dch (n / 10), dch n]

/-- A proleptic-Gregorian civil date. -/
structure Date where
  year : Int
  month : Int
  day : Int
deriving DecidableEq, Repr

/-- Civil date from days since 1970-01-01 (standard era-based conversion,
the computation Go's `time` package performs for a UTC location). -/
def civilFromDays (z0 : Int) : Date :=
  let z := z0 + 719468
  let era := z.fdiv 146097
  let doe := z - era * 146097
  let yoe := (doe - doe / 1461 + doe / 36524 - doe / 146096) / 365
  let doy := doe - (365 * yoe + yoe / 4 - yoe / 100)
  let mp := (5 * doy + 2) / 153
  let d := doy - (153 * mp + 2) / 5 + 1
  let m := if mp < 10 then mp + 3 else mp - 9
  { year := yoe + era * 400 + (if m ≤ 2 then 1 else 0), month := m, day := d }

/-- `time.Unix(t, 0).Format("200601021504")` with the location fixed to UTC:
year, month, day, hour and minute, zero-padded, concatenated. -/
def formatArchiveTime (t : Int) : String :=
  let days := t.fdiv 86400
  let secs := t - days * 86400
  let date := civilFromDays days
  let hh := secs / 3600
  let mm := secs % 3600 / 60
  pad4 date.year.toNat ++ pad2 date.month.toNat ++ pad2 date.day.toNat ++
    pad2 hh.toNat ++ pad2 mm.toNat

/-- State of a `TimeRotateWriter` (struct fields of the Go type) together
with the filesystem `fs` it acts on.  `file : Option Unit` models the
`io.WriteCloser` field: `none` is the nil interface, `some ()` an open
handle on `filename`.  The mutex is not modelled: the embedding describes
one serialized call at a time, which is what the lock enforces. -/
structure TimeRotateWriter where
  filename : String
  maxBackups : Int
  rotateInterval : Int
  file : Option Unit
  rotateAt : Int
  intervalInSeconds : Int
  fs : Fs

namespace TimeRotateWriter

/-- `openFile`: if the handle is nil, open `filename` with
`O_CREATE|O_APPEND|O_WRONLY` (creating an empty file when absent,
keeping the old contents when present); otherwise do nothing. -/
def openFile (env : Env) (s : TimeRotateWriter) : Except Err TimeRotateWriter :=
  match s.file with
  | some _ => .ok s
  | none =>
    if env.openFails then .error .openErr
    else .ok { s with
      file := some (),
      fs := fun q => if q = s.filename then some ((s.fs s.filename).getD []) else s.fs q }

/-- `Close`: calls `wr.file.Close()`.  When `wr.file` is the nil interface
(writer already closed, or the initial open failed) the Go call panics with
a nil-pointer dereference: modelled as `none`.  On success the handle is
set to nil; on a close error the handle is left in place. -/
def close (env : Env) (s : TimeRotateWriter) :
    Option (TimeRotateWriter × Option Err) :=
  match s.file with
  | none => none
  | some _ =>
    if env.closeFails then some (s, some .closeErr)
    else some ({ s with file := none }, none)

/-- `shouldRotate`: `time.Now().Unix() >= wr.rotateAt`. -/
def shouldRotate (now : Int) (s : TimeRotateWriter) : Bool :=
  decide (s.rotateAt ≤ now)

/-- `calcNextRotateTime`: `rotateAt = now - now.Second() + intervalInSeconds`.
Go's `Second()` on an epoch timestamp is its residue modulo 60 (always in
`[0, 60)`), which is `Int.emod`, Lean's `%` on `Int`. -/
def calcNextRotateTime (now ivl : Int) : Int :=
  now - now % 60 + ivl

/-- The archive path computed by `rotate`:
`filename + "." + time.Unix(rotateAt - intervalInSeconds, 0).Format("200601021504")`. -/
def archivePath (s : TimeRotateWriter) : String :=
  s.filename ++ "." ++ formatArchiveTime (s.rotateAt - s.intervalInSeconds)

/-- `deleteExpiredFiles`: the Go body is an empty stub carrying only
`// TODO: implement deleting expired files` — it deletes nothing. -/
def deleteExpiredFiles (s : TimeRotateWriter) : TimeRotateWriter := s

/-- `if _, err := os.Stat(dstPath); err == nil { os.Remove(dstPath) }`:
remove the entry at `p` when it exists (the `os.Remove` error is ignored
by the Go code). -/
def statRemove (fs : Fs) (p : String) : Fs :=
  match fs p with
  | some _ => fun q => if q = p then none else fs q
  | none => fs

/-- `os.Rename(src, dst)`: move the contents at `src` to `dst`,
overwriting `dst`; fails when forced to by the environment or when `src`
does not exist. -/
def renameFile (env : Env) (fs : Fs) (src dst : String) : Except Err Fs :=
  if env.renameFails then .error .renameErr
  else
    match fs src with
    | none => .error .renameErr
    | some content =>
      .ok (fun q => if q = dst then some content else if q = src then none else fs q)

/-- `rotate`: close the current handle; delete a pre-existing file at the
archive path; rename the active file onto it; when `maxBackups > 0` call
the (stub) expired-file deletion; recompute `rotateAt`; reopen.  Any step's
error aborts the remainder and is returned. -/
def rotate (env : Env) (now : Int) (s : TimeRotateWriter) :
    Option (TimeRotateWriter × Option Err) :=
  match s.file with
  | none => none
  | some _ =>
    if env.closeFails then some (s, some .closeErr)
    else
      let s1 : TimeRotateWriter := { s with file := none }
      let dstPath := archivePath s
      let s2 : TimeRotateWriter := { s1 with fs := statRemove s1.fs dstPath }
      match renameFile env s2.fs s2.filename dstPath with
      | .error e => some (s2, some e)
      | .ok fs3 =>
        let s3 : TimeRotateWriter := { s2 with fs := fs3 }
        let s4 := if 0 < s3.maxBackups then deleteExpiredFiles s3 else s3
        let s5 : TimeRotateWriter :=
          { s4 with rotateAt := calcNextRotateTime now s4.intervalInSeconds }
        match openFile env s5 with
        | .error e => some (s5, some e)
        | .ok s6 => some (s6, none)

/-- `wr.file.Write(data)`: append to the open file; panic (`none`) on a nil
handle; on success report `len(data)` bytes written. -/
def fileWrite (env : Env) (dat : Bytes) (s : TimeRotateWriter) :
    Option (TimeRotateWriter × Nat × Option Err) :=
  match s.file with
  | none => none
  | some _ =>
    if env.writeFails then some (s, 0, some .writeErr)
    else some ({ s with
      fs := fun q => if q = s.filename then some ((s.fs s.filename).getD [] ++ dat) else s.fs q },
      dat.length, none)

/-- `Write`: lazily open, rotate when due, then write; each failing step
returns `(0, err)`.  The result triple models Go's `(succBytes, err)`
together with the post-state. -/
def write (env : Env) (now : Int) (dat : Bytes) (s : TimeRotateWriter) :
    Option (TimeRotateWriter × Nat × Option Err) :=
  match openFile env s with
  | .error e => some (s, 0, some e)
  | .ok s1 =>
    if shouldRotate now s1 then
      match rotate env now s1 with
      | none => none
      | some (s2, some e) => some (s2, 0, some e)
      | some (s2, none) => fileWrite env dat s2
    else fileWrite env dat s1

/-- The bytes of a Go string (UTF-8 encoding). -/
def strBytes (d : String) : Bytes := d.toUTF8.toList.map (fun b => b.toNat)

/-- `WriteString(data)`: `Write([]byte(data))`. -/
def writeString (env : Env) (now : Int) (d : String) (s : TimeRotateWriter) :
    Option (TimeRotateWriter × Nat × Option Err) :=
  write env now (strBytes d) s

end TimeRotateWriter

/-- `NewTimeRotateWriter(filename, interval, backupCount)`: build the struct,
set `intervalInSeconds = interval * 60`, compute the first `rotateAt`, then
attempt the initial open.  The writer value is returned in every case,
alongside the open error when the open failed. -/
def NewTimeRotateWriter (env : Env) (now : Int) (filename : String)
    (interval backupCount : Int) (fs : Fs) : TimeRotateWriter × Option Err :=
  let s : TimeRotateWriter :=
    { filename := filename
      maxBackups := backupCount
      rotateInterval := interval
      file := none
      rotateAt := TimeRotateWriter.calcNextRotateTime now (interval * 60)
      intervalInSeconds := interval * 60
      fs := fs }
  match TimeRotateWriter.openFile env s with
  | .error e => (s, some e)
  | .ok s1 => (s1, none)

/-! ### Record / handler pipeline

The handler implementation file of the repository is not among the sources;
only its test file (`src/unnamed/part_000`) is.  The definitions below are
therefore modelled from the spec, with each observable behaviour pinned by
the assertions of the corresponding test. -/

/-- A context value (`interface{}` in the Go code): nil, a string, an
integer, or an error value carrying its message text. -/
inductive Val where
  | vnil
  | vstr (s : String)
  | vint (n : Int)
  | verr (e : String)
deriving DecidableEq, Repr

/-- The payload wrapped by `Lazy`.  Only a zero-argument single-return
function is valid; a function taking an argument, a function returning
nothing, and a non-function value are the invalid shapes exercised by
`TestInvalidLazy`. -/
inductive LazyPayload where
  | fn0 (f : Unit → Val)
  | fnArg
  | fnNoRet
  | notFn (v : Val)

/-- One slot of a record context: either a plain value or a `Lazy`. -/
inductive Entry where
  | val (v : Val)
  | lazy (l : LazyPayload)

/-- Whether a key-position entry is the string `key`. -/
def Entry.isKeyNamed (e : Entry) (key : String) : Bool :=
  match e with
  | .val (.vstr s) => s = key
  | _ => false

/-- Modelled from the spec: a `Record` is one log event — time, level,
message and an ordered key/value context sequence. -/
structure Record where
  time : Int
  lvl : Nat
  msg : String
  ctx : List Entry

/-- Modelled from the spec: a `Handler` consumes a `Record` and reports an
error (here: its message text) or success. -/
abbrev Handler := Record → Except String Unit

/-- Modelled from the spec: the reserved error key injected by the
framework when lazy resolution fails (`errorKey` in the test file). -/
def errorKey : String := "LOG15_ERROR"

/-- Whether the context holds the filter key with a value equal to the
filter value: scan key positions for `key`; at the first hit compare the
following value slot.  Modelled from the spec and pinned by
`TestMatchFilterHandler`: a record passes the filter exactly when this
scan succeeds. -/
def matchFilterPasses (key : String) (value : Val) : List Entry → Bool
  | k :: v :: rest =>
    if k.isKeyNamed key then
      match v with
      | .val w => w = value
      | .lazy _ => false
    else matchFilterPasses key value rest
  | _ => false

/-- Modelled from the spec: `MatchFilterHandler(key, value, inner)` passes
the record to `inner` iff the context carries `key` with a value equal to
`value`; otherwise the record is discarded without invoking `inner`. -/
def matchFilterHandle (key : String) (value : Val) (inner : Handler)
    (r : Record) : Except String Unit :=
  if matchFilterPasses key value r.ctx then inner r else .ok ()

/-- Modelled from the spec: `FailoverHandler` tries the handlers in order,
starting at index `i = 0`; each failure appends the pair
`("failover_err_<i>", <error>)` to the record's context before the next
attempt; the error of the last handler is returned when all fail, and an
empty handler list reports success. -/
def failoverHandle : List Handler → Nat → Record → Except String Unit
  | [], _, _ => .ok ()
  | h :: rest, i, r =>
    match h r with
    | .ok _ => .ok ()
    | .error e =>
      match rest with
      | [] => .error e
      | h2 :: rest2 =>
        failoverHandle (h2 :: rest2) (i + 1)
          { r with ctx := r.ctx ++
              [.val (.vstr ("failover_err_" ++ toString i)), .val (.verr e)] }

/-- `FailoverHandler(hs...)`: the failover chain started at index 0. -/
def failoverHandler (hs : List Handler) (r : Record) : Except String Unit :=
  failoverHandle hs 0 r

/-- Modelled from the spec: resolving a `Lazy` succeeds only for a valid
zero-argument single-return function; every invalid shape yields the
diagnostic error. -/
def evaluateLazy : LazyPayload → Except String Val
  | .fn0 f => .ok (f ())
  | .fnArg => .error "bad lazy"
  | .fnNoRet => .error "bad lazy"
  | .notFn _ => .error "bad lazy"

/-- Resolve every `Lazy` in value position, substituting its result (or the
resolution error), and report whether any resolution failed. -/
def resolveCtx : List Entry → List Entry × Bool
  | k :: v :: rest =>
    let tailRes := resolveCtx rest
    match v with
    | .lazy l =>
      match evaluateLazy l with
      | .ok w => (k :: .val w :: tailRes.1, tailRes.2)
      | .error d => (k :: .val (.verr d) :: tailRes.1, true)
    | .val w => (k :: .val w :: tailRes.1, tailRes.2)
  | other => (other, false)

/-- Whether some value position holds an invalid `Lazy`. -/
def hasInvalidLazy : List Entry → Bool
  | _ :: v :: rest =>
    (match v with
     | .lazy .fnArg => true
     | .lazy .fnNoRet => true
     | .lazy (.notFn _) => true
     | _ => false) || hasInvalidLazy rest
  | _ => false

/-- Modelled from the spec: the lazy-resolving stage run once per log call.
It resolves the context; when any resolution failed it appends the marker
pair `(errorKey, "bad lazy")`; it then passes the record on. -/
def lazyHandle (inner : Handler) (r : Record) : Except String Unit :=
  let res := resolveCtx r.ctx
  let ctx2 :=
    if res.2 then res.1 ++ [Entry.val (.vstr errorKey), Entry.val (.verr "bad lazy")]
    else res.1
  inner { r with ctx := ctx2 }

/-- A handler that always fails with error text `e`. -/
def mkFail (e : String) : Handler := fun _ => .error e

/-- The context entries appended by a run of failover attempts that fail
with the error texts `es`, the first failing handler having index `i`. -/
def annotList : List String → Nat → List Entry
  | [], _ => []
  | e :: rest, i =>
    .val (.vstr ("failover_err_" ++ toString i)) :: .val (.verr e) ::
      annotList rest (i + 1)

/-! ### Concrete example states used by closed theorems -/

/-- A writer holding an open handle on `app.log` (contents `[1]`) with two
timestamp-suffixed archives already on disk, `maxBackups = 1`, a one-minute
interval and a rotation due at epoch second 60. -/
def c2State : TimeRotateWriter :=
  { filename := "app.log"
    maxBackups := 1
    rotateInterval := 1
    file := some ()
    rotateAt := 60
    intervalInSeconds := 60
    fs := fun q =>
      if q = "app.log" then some [1]
      else if q = "app.log.196912312358" then some [2]
      else if q = "app.log.196912312359" then some [3]
      else none }

/-- A writer whose handle is nil: the state after a successful `Close`
(or after a failed initial open). -/
def closedState : TimeRotateWriter :=
  { filename := "app.log"
    maxBackups := 0
    rotateInterval := 1
    file := none
    rotateAt := 60
    intervalInSeconds := 60
    fs := fun q => if q = "app.log" then some [1] else none }

/-- A writer holding an open handle on `app.log` with a rotation due at
epoch second 0. -/
def dueState : TimeRotateWriter :=
  { filename := "app.log"
    maxBackups := 0
    rotateInterval := 1
    file := some ()
    rotateAt := 0
    intervalInSeconds := 60
    fs := fun q => if q = "app.log" then some [1] else none }

/-- A writer due for rotation whose archive path is already occupied by an
older file, exercising the delete-before-rename step. -/
def collideState : TimeRotateWriter :=
  { filename := "app.log"
    maxBackups := 0
    rotateInterval := 1
    file := some ()
    rotateAt := 60
    intervalInSeconds := 60
    fs := fun q =>
      if q = "app.log" then some [9]
      else if q = "app.log.197001010000" then some [5]
      else none }

/-- An environment in which only `file.Close` fails. -/
def failCloseEnv : Env := { closeFails := true }

/-- An environment in which only `os.OpenFile` fails. -/
def failOpenEnv : Env := { openFails := true }

/-- The record of `TestMatchFilterHandler` whose context lacks the key
`err`. -/
def rNoErr : Record :=
  { time := 0, lvl := 4, msg := "test", ctx := [.val (.vstr "foo"), .val (.vstr "bar")] }

/-- The record of `TestMatchFilterHandler` carrying `err = "bad fd"`. -/
def rBadFd : Record :=
  { time := 0, lvl := 4, msg := "test2", ctx := [.val (.vstr "err"), .val (.vstr "bad fd")] }

/-- The record of `TestMatchFilterHandler` carrying `err = nil`. -/
def rErrNil : Record :=
  { time := 0, lvl := 4, msg := "test3", ctx := [.val (.vstr "err"), .val .vnil] }

/-- A record carrying an invalid `Lazy` (a non-function payload), as in
`TestInvalidLazy`. -/
def rBadLazy : Record :=
  { time := 0, lvl := 1, msg := "", ctx := [.val (.vstr "x"), .lazy (.notFn (.vint 1))] }

/-! ### Basic facts about the archive-timestamp formatter -/

theorem mk_append (a b : List Char) : String.mk a ++ String.mk b = String.mk (a ++ b) := rfl

/-- The formatter always produces exactly the twelve digit characters
year(4) month(2) day(2) hour(2) minute(2). -/
theorem formatArchiveTime_eq (t : Int) :
    formatArchiveTime t =
      String.mk [
        dch ((civilFromDays (t.fdiv 86400)).year.toNat / 1000),
        dch ((civilFromDays (t.fdiv 86400)).year.toNat / 100),
        dch ((civilFromDays (t.fdiv 86400)).year.toNat / 10),
        dch (civilFromDays (t.fdiv 86400)).year.toNat,
        dch ((civilFromDays (t.fdiv 86400)).month.toNat / 10),
        dch (civilFromDays (t.fdiv 86400)).month.toNat,
        dch ((civilFromDays (t.fdiv 86400)).day.toNat / 10),
        dch (civilFromDays (t.fdiv 86400)).day.toNat,
        dch (((t - t.fdiv 86400 * 86400) / 3600).toNat / 10),
        dch ((t - t.fdiv 86400 * 86400) / 3600).toNat,
        dch (((t - t.fdiv 86400 * 86400) % 3600 / 60).toNat / 10),
        dch ((t - t.fdiv 86400 * 86400) % 3600 / 60).toNat] := rfl

theorem formatArchiveTime_length (t : Int) : (formatArchiveTime t).length = 12 := by
  rw [formatArchiveTime_eq]
  rfl

theorem dch_isDigit (n : Nat) : (dch n).isDigit = true := by
  unfold dch
  have h : n % 10 < 10 := Nat.mod_lt _ (by norm_num)
  generalize n % 10 = r at h
  interval_cases r <;> decide

theorem formatArchiveTime_digits (t : Int) :
    ∀ c ∈ (formatArchiveTime t).data, c.isDigit = true := by
  rw [formatArchiveTime_eq]
  intro c hc
  simp only [String.mk, List.mem_cons, List.not_mem_nil, or_false] at hc
  rcases hc with h | h | h | h | h | h | h | h | h | h | h | h <;>
    (subst h; exact dch_isDigit _)

/-- The archive path is strictly longer than the active filename, hence
distinct from it. -/
theorem archivePath_ne_filename (s : TimeRotateWriter) :
    TimeRotateWriter.archivePath s ≠ s.filename := by
  intro h
  have hl := congrArg String.length h
  rw [TimeRotateWriter.archivePath] at hl
  rw [String.length_append, String.length_append, formatArchiveTime_length] at hl
  omega

/-! ### Helper lemmas about the writer operations -/

theorem openFile_ok_file (env : Env) (s s1 : TimeRotateWriter)
    (h : TimeRotateWriter.openFile env s = .ok s1) : s1.file = some () := by
  unfold TimeRotateWriter.openFile at h
  cases hf : s.file with
  | some u =>
    rw [hf] at h
    cases h
    rw [hf]
  | none =>
    rw [hf] at h
    by_cases ho : env.openFails
    · simp [ho] at h
    · simp [ho] at h
      rw [← h]

theorem rotate_not_none (env : Env) (now : Int) (s : TimeRotateWriter)
    (hf : s.file = some ()) : TimeRotateWriter.rotate env now s ≠ none := by
  unfold TimeRotateWriter.rotate
  rw [hf]
  by_cases hc : env.closeFails
  · simp [hc]
  · simp only [hc, if_false, Bool.false_eq_true]
    split
    · simp
    · split <;> simp

theorem rotate_ok_file (env : Env) (now : Int) (s s2 : TimeRotateWriter)
    (h : TimeRotateWriter.rotate env now s = some (s2, none)) : s2.file = some () := by
  unfold TimeRotateWriter.rotate at h
  cases hf : s.file with
  | none => rw [hf] at h; cases h
  | some u =>
    rw [hf] at h
    by_cases hc : env.closeFails
    · simp [hc] at h
    · simp only [hc, if_false, Bool.false_eq_true] at h
      split at h
      · simp at h
      · split at h
        · simp at h
        · simp only [Option.some.injEq, Prod.mk.injEq] at h
          exact h.1 ▸ openFile_ok_file _ _ _ (by assumption)

theorem fileWrite_not_none (env : Env) (dat : Bytes) (s : TimeRotateWriter)
    (hf : s.file = some ()) : TimeRotateWriter.fileWrite env dat s ≠ none := by
  simp only [TimeRotateWriter.fileWrite, hf]
  split <;> simp

theorem openFile_ok_meta (env : Env) (s s1 : TimeRotateWriter)
    (h : TimeRotateWriter.openFile env s = .ok s1) :
    s1.filename = s.filename ∧ s1.rotateAt = s.rotateAt ∧
    s1.intervalInSeconds = s.intervalInSeconds ∧ s1.maxBackups = s.maxBackups := by
  unfold TimeRotateWriter.openFile at h
  cases hf : s.file with
  | some u =>
    rw [hf] at h
    cases h
    exact ⟨rfl, rfl, rfl, rfl⟩
  | none =>
    rw [hf] at h
    by_cases ho : env.openFails
    · simp [ho] at h
    · simp [ho] at h
      rw [← h]
      exact ⟨rfl, rfl, rfl, rfl⟩

theorem rotate_ok_rotateAt (env : Env) (now : Int) (s s2 : TimeRotateWriter)
    (h : TimeRotateWriter.rotate env now s = some (s2, none)) :
    s2.rotateAt = TimeRotateWriter.calcNextRotateTime now s.intervalInSeconds := by
  unfold TimeRotateWriter.rotate at h
  cases hf : s.file with
  | none => rw [hf] at h; cases h
  | some u =>
    rw [hf] at h
    by_cases hc : env.closeFails
    · simp [hc] at h
    · simp only [hc, if_false, Bool.false_eq_true,
        TimeRotateWriter.deleteExpiredFiles, ite_self] at h
      split at h
      · simp at h
      · split at h
        · simp at h
        · simp only [Option.some.injEq, Prod.mk.injEq] at h
          have hmeta := openFile_ok_meta _ _ _ (by assumption)
          rw [h.1] at hmeta
          exact hmeta.2.1

theorem statRemove_ne (fs : Fs) (p q : String) (h : ¬ q = p) :
    TimeRotateWriter.statRemove fs p q = fs q := by
  unfold TimeRotateWriter.statRemove
  cases hfp : fs p with
  | some old => simp [h]
  | none => rfl

theorem statRemove_subset (fs : Fs) (d : String) :
    ∀ p c, TimeRotateWriter.statRemove fs d p = some c → fs p = some c := by
  intro p c h
  unfold TimeRotateWriter.statRemove at h
  cases hfp : fs d with
  | some old =>
    rw [hfp] at h
    by_cases hpd : p = d
    · simp [hpd] at h
    · simpa [hpd] using h
  | none => rwa [hfp] at h

theorem openFile_noFail_spec (s : TimeRotateWriter) :
    ∃ s1, TimeRotateWriter.openFile noFail s = .ok s1 ∧
      s1.file = some () ∧ s1.filename = s.filename ∧ s1.rotateAt = s.rotateAt ∧
      s1.intervalInSeconds = s.intervalInSeconds ∧ s1.maxBackups = s.maxBackups ∧
      (s1.fs s.filename).getD [] = (s.fs s.filename).getD [] ∧
      (∀ p, p ≠ s.filename → s1.fs p = s.fs p) ∧
      (s.file = none → s1.fs s.filename = some ((s.fs s.filename).getD [])) ∧
      (s.file = some () → s1 = s) := by
  cases hf : s.file with
  | some u =>
    cases u
    refine ⟨s, ?_, hf, rfl, rfl, rfl, rfl, rfl, fun p _ => rfl, ?_, fun _ => rfl⟩
    · unfold TimeRotateWriter.openFile
      rw [hf]
    · intro h
      exact Option.noConfusion h
  | none =>
    refine ⟨{ s with
        file := some ()
        fs := fun q => if q = s.filename then some ((s.fs s.filename).getD []) else s.fs q },
      ?_, rfl, rfl, rfl, rfl, rfl, ?_, ?_, ?_, ?_⟩
    · unfold TimeRotateWriter.openFile
      rw [hf]
      rfl
    · simp
    · intro p hp
      simp [hp]
    · intro _
      simp
    · intro h
      exact Option.noConfusion h

theorem rotate_noFail_spec (now : Int) (s : TimeRotateWriter) (c : Bytes)
    (hf : s.file = some ()) (hc : s.fs s.filename = some c) :
    ∃ s', TimeRotateWriter.rotate noFail now s = some (s', none) ∧
      s'.file = some () ∧
      s'.filename = s.filename ∧
      s'.intervalInSeconds = s.intervalInSeconds ∧
      s'.maxBackups = s.maxBackups ∧
      s'.rotateAt = TimeRotateWriter.calcNextRotateTime now s.intervalInSeconds ∧
      s'.fs (TimeRotateWriter.archivePath s) = some c ∧
      s'.fs s.filename = some [] ∧
      (∀ p, p ≠ s.filename → p ≠ TimeRotateWriter.archivePath s → s'.fs p = s.fs p) := by
  have hfne : ¬ s.filename = TimeRotateWriter.archivePath s :=
    fun h => archivePath_ne_filename s h.symm
  have hdne : ¬ TimeRotateWriter.archivePath s = s.filename := archivePath_ne_filename s
  have hrm : TimeRotateWriter.statRemove s.fs (TimeRotateWriter.archivePath s) s.filename
      = some c := by
    rw [statRemove_ne _ _ _ hfne]
    exact hc
  have hren : TimeRotateWriter.renameFile noFail
      (TimeRotateWriter.statRemove s.fs (TimeRotateWriter.archivePath s))
      s.filename (TimeRotateWriter.archivePath s) =
      .ok (fun q => if q = TimeRotateWriter.archivePath s then some c
           else if q = s.filename then none
           else TimeRotateWriter.statRemove s.fs (TimeRotateWriter.archivePath s) q) := by
    unfold TimeRotateWriter.renameFile
    rw [hrm]
    rfl
  unfold TimeRotateWriter.rotate
  rw [hf]
  dsimp only
  rw [hren]
  dsimp only
  simp only [TimeRotateWriter.deleteExpiredFiles, ite_self]
  refine ⟨_, rfl, rfl, rfl, rfl, rfl, rfl, ?_, ?_, ?_⟩
  · dsimp only
    rw [if_neg hdne, if_pos rfl]
  · dsimp only
    rw [if_pos rfl, if_neg hfne, if_pos rfl]
    rfl
  · intro p hp hpd
    dsimp only
    rw [if_neg hp, if_neg hpd, if_neg hp]
    exact statRemove_ne s.fs _ p hpd

/-! ### Claim theorems -/

/-- C6, counterexample: calling `Close` on a writer whose handle is already
nil (for instance right after a successful `Close`) dereferences the nil
`io.WriteCloser` interface and panics, contradicting the claim that no
public operation ever panics. -/
theorem close_after_close_panics :
    TimeRotateWriter.close noFail closedState = none := rfl

/-- C6 (amended): `Write` and `WriteString` never panic in any state and
signal all failures through their error return, and `Close` does not panic
as long as a handle is open; but `Close` on a writer whose handle is nil
panics. -/
theorem write_close_panic_behavior (env : Env) (now : Int) (dat : Bytes)
    (d : String) (s : TimeRotateWriter) :
    TimeRotateWriter.write env now dat s ≠ none ∧
    TimeRotateWriter.writeString env now d s ≠ none ∧
    (s.file = some () → TimeRotateWriter.close env s ≠ none) := by
  have hw : ∀ dat2 : Bytes, TimeRotateWriter.write env now dat2 s ≠ none := by
    intro dat2
    unfold TimeRotateWriter.write
    cases ho : TimeRotateWriter.openFile env s with
    | error e => simp
    | ok s1 =>
      have h1 := openFile_ok_file env s s1 ho
      by_cases hr : TimeRotateWriter.shouldRotate now s1 = true
      · simp only [hr, if_true]
        cases hrot : TimeRotateWriter.rotate env now s1 with
        | none => exact absurd hrot (rotate_not_none env now s1 h1)
        | some p =>
          rcases p with ⟨s2, oe⟩
          cases oe with
          | none =>
            simp only [hrot]
            exact fileWrite_not_none env dat2 s2 (rotate_ok_file env now s1 s2 hrot)
          | some e => simp [hrot]
      · simp only [Bool.not_eq_true] at hr
        simp only [hr, Bool.false_eq_true, if_false]
        exact fileWrite_not_none env dat2 s1 h1
  refine ⟨hw dat, hw _, ?_⟩
  intro hf
  simp only [TimeRotateWriter.close, hf]
  split <;> simp

/-- C6 witness: evaluating the amended claim on a concrete open writer. -/
theorem write_close_panic_behavior_witness :
    TimeRotateWriter.write noFail 5 [7] dueState ≠ none ∧
    TimeRotateWriter.close noFail dueState ≠ none :=
  ⟨(write_close_panic_behavior noFail 5 [7] "x" dueState).1,
   (write_close_panic_behavior noFail 5 [7] "x" dueState).2.2 rfl⟩

/-- C2: rotating `c2State` (`maxBackups = 1`, two archives already on
disk) succeeds but deletes no archive — `deleteExpiredFiles` is an empty
TODO stub — so three archives remain where the claim allows at most one. -/
theorem rotate_keeps_expired_archives :
    ∃ s', TimeRotateWriter.rotate noFail 60 c2State = some (s', none) ∧
      c2State.maxBackups = 1 ∧
      s'.fs "app.log.196912312358" = some [2] ∧
      s'.fs "app.log.196912312359" = some [3] ∧
      s'.fs "app.log.197001010000" = some [1] := by
  refine ⟨_, rfl, rfl, ?_, ?_, ?_⟩ <;> rfl

/-- C3, counterexample: with a 2-minute interval, constructing the writer
at time 180 sets `rotateAt = 300`, while truncation to the start of the
current rotation interval plus the interval gives 240; 300 is not aligned
to a 120-second interval boundary. -/
theorem rotateAt_not_interval_aligned :
    (NewTimeRotateWriter noFail 180 "app.log" 2 0 Fs.empty).1.rotateAt = 300 ∧
    (180 : Int) - 180 % (2 * 60) + 2 * 60 = 240 ∧
    ¬(300 : Int) % (2 * 60) = 0 :=
  ⟨rfl, by decide, by decide⟩

/-- C3 (amended): whenever the next-rotation timestamp is computed — at
construction and after each successful rotation — `rotateAt` equals the
current time truncated down to the start of the current **minute** plus
`intervalInSeconds`; rotation times are therefore aligned to minute
boundaries (which coincide with interval boundaries only for one-minute
intervals). -/
theorem rotateAt_minute_aligned (env : Env) (now ivlMin backup : Int) (f : String)
    (fs : Fs) (s s2 : TimeRotateWriter)
    (hrot : TimeRotateWriter.rotate env now s = some (s2, none)) :
    TimeRotateWriter.calcNextRotateTime now (ivlMin * 60) = 60 * (now / 60) + ivlMin * 60 ∧
    TimeRotateWriter.calcNextRotateTime now (ivlMin * 60) % 60 = 0 ∧
    (NewTimeRotateWriter env now f ivlMin backup fs).1.rotateAt =
      TimeRotateWriter.calcNextRotateTime now (ivlMin * 60) ∧
    s2.rotateAt = TimeRotateWriter.calcNextRotateTime now s.intervalInSeconds := by
  refine ⟨?_, ?_, ?_, rotate_ok_rotateAt env now s s2 hrot⟩
  · unfold TimeRotateWriter.calcNextRotateTime
    omega
  · unfold TimeRotateWriter.calcNextRotateTime
    omega
  · unfold NewTimeRotateWriter
    cases ho : TimeRotateWriter.openFile env
        { filename := f, maxBackups := backup, rotateInterval := ivlMin, file := none,
          rotateAt := TimeRotateWriter.calcNextRotateTime now (ivlMin * 60),
          intervalInSeconds := ivlMin * 60, fs := fs } with
    | error e => simp [ho]
    | ok s1 =>
      simp only [ho]
      exact (openFile_ok_meta _ _ _ ho).2.1

/-- C3 witness: the amended claim evaluated on a concrete rotation of
`dueState` at time 65 with a one-minute interval. -/
theorem rotateAt_minute_aligned_witness :
    ∃ s2, TimeRotateWriter.rotate noFail 65 dueState = some (s2, none) ∧
      (TimeRotateWriter.calcNextRotateTime 65 (1 * 60) = 60 * (65 / 60) + 1 * 60 ∧
       TimeRotateWriter.calcNextRotateTime 65 (1 * 60) % 60 = 0 ∧
       (NewTimeRotateWriter noFail 65 "app.log" 1 0 Fs.empty).1.rotateAt =
         TimeRotateWriter.calcNextRotateTime 65 (1 * 60) ∧
       s2.rotateAt = TimeRotateWriter.calcNextRotateTime 65 dueState.intervalInSeconds) := by
  refine ⟨_, rfl, ?_⟩
  exact rotateAt_minute_aligned noFail 65 1 0 "app.log" Fs.empty dueState _ rfl

/-- C7, counterexample: a `MatchFilter` on key `err` with filter value nil
**discards** a record whose context lacks the key `err` (the inner handler
is not invoked: the result is `ok`, not the sentinel error the inner
handler would return), contradicting the claim that such a record is
delivered. -/
theorem matchFilter_drops_absent_key :
    matchFilterHandle "err" .vnil (mkFail "delivered") rNoErr = .ok () ∧
    mkFail "delivered" rNoErr = .error "delivered" :=
  ⟨rfl, rfl⟩

/-- C7 (amended): for a `MatchFilter` on key `err` with filter value nil:
a record whose context lacks `err` is dropped; a record carrying
`err = "bad fd"` is dropped; a record carrying `err = nil` is delivered to
the inner handler — as asserted by `TestMatchFilterHandler`. -/
theorem matchFilter_err_semantics (inner : Handler) :
    matchFilterHandle "err" .vnil inner rNoErr = .ok () ∧
    matchFilterHandle "err" .vnil inner rBadFd = .ok () ∧
    matchFilterHandle "err" .vnil inner rErrNil = inner rErrNil :=
  ⟨rfl, rfl, rfl⟩

/-! ### Failover and lazy-resolution lemmas -/

theorem failoverHandle_fails_then (es : List String) (inner : Handler) :
    ∀ (i : Nat) (r : Record),
      failoverHandle (es.map mkFail ++ [inner]) i r =
        inner { r with ctx := r.ctx ++ annotList es i } := by
  induction es with
  | nil =>
    intro i r
    have hrec : ({ r with ctx := r.ctx ++ annotList [] i } : Record) = r := by
      simp [annotList]
    rw [hrec]
    show failoverHandle [inner] i r = inner r
    unfold failoverHandle
    cases h : inner r with
    | ok u =>
      cases u
      simp [h]
    | error e => simp [h]
  | cons e rest ih =>
    intro i r
    simp only [List.map_cons, List.cons_append]
    cases hl : List.map mkFail rest ++ [inner] with
    | nil => simp at hl
    | cons a l =>
      have hstep : failoverHandle (mkFail e :: a :: l) i r =
          failoverHandle (a :: l) (i + 1)
            { r with ctx := r.ctx ++
                [.val (.vstr ("failover_err_" ++ toString i)), .val (.verr e)] } := rfl
      rw [hstep, ← hl, ih]
      simp [annotList, List.append_assoc]

theorem annotList_length (es : List String) : ∀ i : Nat,
    (annotList es i).length = 2 * es.length := by
  induction es with
  | nil => intro i; rfl
  | cons e rest ih =>
    intro i
    simp only [annotList, List.length_cons, ih, List.length_cons]
    omega

/-- C8: for a failover chain whose first handlers fail with error texts
`es` and whose final handler is `inner`, every failed attempt appends
exactly the pair `(failover_err_N, <error text>)` — two context entries per
failed attempt — to a copy of the record, the original entries are
untouched, and the surviving handler receives the annotated record. -/
theorem failover_annotates (es : List String) (inner : Handler) (r : Record)
    (hne : es ≠ []) :
    failoverHandler (es.map mkFail ++ [inner]) r =
      inner { r with ctx := r.ctx ++ annotList es 0 } ∧
    (r.ctx ++ annotList es 0).length = r.ctx.length + 2 * es.length ∧
    (∀ j, j < r.ctx.length → (r.ctx ++ annotList es 0)[j]? = r.ctx[j]?) ∧
    (r.ctx ++ annotList es 0)[r.ctx.length]? =
      some (.val (.vstr "failover_err_0")) := by
  refine ⟨failoverHandle_fails_then es inner 0 r, ?_, ?_, ?_⟩
  · simp [annotList_length]
  · intro j hj
    exact List.getElem?_append_left hj
  · rw [List.getElem?_append_right (le_refl _), Nat.sub_self]
    cases es with
    | nil => exact absurd rfl hne
    | cons e rest => rfl

/-- C8 witness: one failing primary with error text `boom`, then a
succeeding fallback, on a record with one context pair. -/
theorem failover_annotates_witness :
    (["boom"] ≠ ([] : List String)) ∧
    (failoverHandler ([mkFail "boom"] ++ [fun _ => .ok ()]) rNoErr =
      (fun (_ : Record) => (Except.ok () : Except String Unit))
        { rNoErr with ctx := rNoErr.ctx ++ annotList ["boom"] 0 } ∧
     (rNoErr.ctx ++ annotList ["boom"] 0).length = rNoErr.ctx.length + 2 * 1 ∧
     (∀ j, j < rNoErr.ctx.length →
        (rNoErr.ctx ++ annotList ["boom"] 0)[j]? = rNoErr.ctx[j]?) ∧
     (rNoErr.ctx ++ annotList ["boom"] 0)[rNoErr.ctx.length]? =
       some (.val (.vstr "failover_err_0"))) := by
  constructor
  · simp
  · have h := failover_annotates ["boom"] (fun _ => .ok ()) rNoErr (by simp)
    simpa using h

theorem resolveCtx_length : ∀ ctx : List Entry, (resolveCtx ctx).1.length = ctx.length
  | [] => rfl
  | [_] => rfl
  | k :: v :: rest => by
    have ih := resolveCtx_length rest
    cases v with
    | val w => simp [resolveCtx, ih]
    | lazy l =>
      cases hl : evaluateLazy l with
      | ok w => simp [resolveCtx, hl, ih]
      | error d => simp [resolveCtx, hl, ih]

theorem hasInvalidLazy_resolve : ∀ ctx : List Entry,
    hasInvalidLazy ctx = true → (resolveCtx ctx).2 = true
  | [] => by simp [hasInvalidLazy]
  | [_] => by simp [hasInvalidLazy]
  | k :: v :: rest => by
    intro h
    simp only [hasInvalidLazy, Bool.or_eq_true] at h
    cases v with
    | val w =>
      simp only [resolveCtx]
      rcases h with h | h
      · simp at h
      · exact hasInvalidLazy_resolve rest h
    | lazy l =>
      cases l with
      | fn0 f =>
        simp only [resolveCtx, evaluateLazy]
        rcases h with h | h
        · simp at h
        · exact hasInvalidLazy_resolve rest h
      | fnArg => simp [resolveCtx, evaluateLazy]
      | fnNoRet => simp [resolveCtx, evaluateLazy]
      | notFn v => simp [resolveCtx, evaluateLazy]

/-- C9: a log call whose context holds an invalid `Lazy` does not fail:
the lazy-resolving stage passes the record on to the rest of the pipeline
with the marker pair `(errorKey, diagnostic)` appended, the context keeps
all of its (resolved) entries, and its length grows by exactly 2 —
hence at least the original length plus 2. -/
theorem lazy_invalid_appends (inner : Handler) (r : Record)
    (h : hasInvalidLazy r.ctx = true) :
    lazyHandle inner r =
      inner { r with ctx := (resolveCtx r.ctx).1 ++
        [Entry.val (.vstr errorKey), Entry.val (.verr "bad lazy")] } ∧
    (resolveCtx r.ctx).1.length = r.ctx.length ∧
    ((resolveCtx r.ctx).1 ++
      [Entry.val (.vstr errorKey), Entry.val (.verr "bad lazy")]).length =
      r.ctx.length + 2 ∧
    ((resolveCtx r.ctx).1 ++
      [Entry.val (.vstr errorKey), Entry.val (.verr "bad lazy")])[r.ctx.length]? =
      some (Entry.val (.vstr errorKey)) := by
  have hflag := hasInvalidLazy_resolve r.ctx h
  have hlen := resolveCtx_length r.ctx
  refine ⟨?_, hlen, ?_, ?_⟩
  · simp only [lazyHandle, hflag, if_true]
  · simp [hlen]
  · rw [List.getElem?_append_right (by rw [hlen])]
    rw [hlen, Nat.sub_self]
    rfl

/-- C9 witness: the record of `TestInvalidLazy` carrying `Lazy{1}` (a
non-function payload). -/
theorem lazy_invalid_appends_witness :
    hasInvalidLazy rBadLazy.ctx = true ∧
    (lazyHandle (fun _ => .ok ()) rBadLazy =
      (fun (_ : Record) => (Except.ok () : Except String Unit))
        { rBadLazy with ctx := (resolveCtx rBadLazy.ctx).1 ++
          [Entry.val (.vstr errorKey), Entry.val (.verr "bad lazy")] } ∧
     (resolveCtx rBadLazy.ctx).1.length = rBadLazy.ctx.length ∧
     ((resolveCtx rBadLazy.ctx).1 ++
       [Entry.val (.vstr errorKey), Entry.val (.verr "bad lazy")]).length =
       rBadLazy.ctx.length + 2 ∧
     ((resolveCtx rBadLazy.ctx).1 ++
       [Entry.val (.vstr errorKey), Entry.val (.verr "bad lazy")])[rBadLazy.ctx.length]? =
       some (Entry.val (.vstr errorKey))) :=
  ⟨rfl, lazy_invalid_appends (fun _ => .ok ()) rBadLazy rfl⟩

theorem write_noFail_noRotate (now : Int) (dat : Bytes) (s : TimeRotateWriter)
    (hlt : now < s.rotateAt) :
    ∃ s', TimeRotateWriter.write noFail now dat s = some (s', dat.length, none) ∧
      s'.file = some () ∧
      s'.fs s.filename = some ((s.fs s.filename).getD [] ++ dat) ∧
      (∀ p, p ≠ s.filename → s'.fs p = s.fs p) := by
  obtain ⟨s1, ho, hfile, hname, hrotAt, hivl, hmax, hgetD, hother, hnone, hsome⟩ :=
    openFile_noFail_spec s
  have hsr : TimeRotateWriter.shouldRotate now s1 = false := by
    unfold TimeRotateWriter.shouldRotate
    rw [hrotAt]
    exact decide_eq_false (not_le.mpr hlt)
  refine ⟨{ s1 with
      fs := fun q =>
        if q = s1.filename then some ((s1.fs s1.filename).getD [] ++ dat) else s1.fs q },
    ?_, hfile, ?_, ?_⟩
  · unfold TimeRotateWriter.write
    rw [ho]
    dsimp only
    rw [if_neg (by rw [hsr]; exact Bool.false_ne_true)]
    unfold TimeRotateWriter.fileWrite
    rw [hfile]
    rfl
  · dsimp only
    rw [hname, if_pos rfl, hgetD]
  · intro p hp
    dsimp only
    rw [hname, if_neg hp]
    exact hother p hp

theorem write_noFail_rotate (now : Int) (dat : Bytes) (s : TimeRotateWriter)
    (hge : s.rotateAt ≤ now)
    (hinv : s.file = some () → (s.fs s.filename).isSome = true) :
    ∃ s', TimeRotateWriter.write noFail now dat s = some (s', dat.length, none) ∧
      s'.file = some () ∧
      s'.fs (TimeRotateWriter.archivePath s) = some ((s.fs s.filename).getD []) ∧
      s'.fs s.filename = some dat ∧
      s'.rotateAt = TimeRotateWriter.calcNextRotateTime now s.intervalInSeconds ∧
      (∀ p, p ≠ s.filename → p ≠ TimeRotateWriter.archivePath s → s'.fs p = s.fs p) := by
  obtain ⟨s1, ho, hfile, hname, hrotAt, hivl, hmax, hgetD, hother, hnone, hsome⟩ :=
    openFile_noFail_spec s
  have hc1 : s1.fs s1.filename = some ((s.fs s.filename).getD []) := by
    rw [hname]
    cases hsf : s.file with
    | some u =>
      cases u
      rw [hsome hsf]
      obtain ⟨c, hcc⟩ := Option.isSome_iff_exists.mp (hinv hsf)
      rw [hcc]
      rfl
    | none => exact hnone hsf
  have harch : TimeRotateWriter.archivePath s1 = TimeRotateWriter.archivePath s := by
    unfold TimeRotateWriter.archivePath
    rw [hname, hrotAt, hivl]
  obtain ⟨s2, hrot, h2file, h2name, h2ivl, h2max, h2rotAt, h2arch, h2fname, h2other⟩ :=
    rotate_noFail_spec now s1 _ hfile hc1
  have hsr : TimeRotateWriter.shouldRotate now s1 = true := by
    unfold TimeRotateWriter.shouldRotate
    rw [hrotAt]
    exact decide_eq_true hge
  rw [harch] at h2arch
  refine ⟨{ s2 with
      fs := fun q =>
        if q = s2.filename then some ((s2.fs s2.filename).getD [] ++ dat) else s2.fs q },
    ?_, h2file, ?_, ?_, ?_, ?_⟩
  · unfold TimeRotateWriter.write
    rw [ho]
    dsimp only
    rw [if_pos hsr, hrot]
    dsimp only
    unfold TimeRotateWriter.fileWrite
    rw [h2file]
    rfl
  · dsimp only
    rw [h2name, hname, if_neg (archivePath_ne_filename s)]
    exact h2arch
  · dsimp only
    rw [h2name, hname, if_pos rfl]
    rw [hname] at h2fname
    rw [h2fname]
    rfl
  · dsimp only
    rw [h2rotAt, hivl]
  · intro p hp hpd
    dsimp only
    rw [h2name, hname, if_neg hp]
    rw [h2other p (by rw [hname]; exact hp) (by rw [harch]; exact hpd)]
    exact hother p hp

/-- C1: with all I/O succeeding, a `Write` strictly before `rotateAt`
renames no file and appends the bytes to the active file at `filename`,
while a `Write` at or after `rotateAt` moves the active file's contents to
the timestamp-suffixed archive path, starts a fresh active file, and writes
the pending bytes into it — all within the same call.  The hypothesis
states the writer's invariant that an open handle is backed by an existing
file. -/
theorem write_rotation_boundary (now : Int) (dat : Bytes) (s : TimeRotateWriter)
    (hinv : s.file = some () → (s.fs s.filename).isSome = true) :
    (now < s.rotateAt →
      ∃ s', TimeRotateWriter.write noFail now dat s = some (s', dat.length, none) ∧
        s'.fs s.filename = some ((s.fs s.filename).getD [] ++ dat) ∧
        (∀ p, p ≠ s.filename → s'.fs p = s.fs p)) ∧
    (s.rotateAt ≤ now →
      ∃ s', TimeRotateWriter.write noFail now dat s = some (s', dat.length, none) ∧
        s'.fs (TimeRotateWriter.archivePath s) = some ((s.fs s.filename).getD []) ∧
        s'.fs s.filename = some dat ∧
        (∀ p, p ≠ s.filename → p ≠ TimeRotateWriter.archivePath s → s'.fs p = s.fs p)) := by
  constructor
  · intro hlt
    obtain ⟨s', h1, _, h3, h4⟩ := write_noFail_noRotate now dat s hlt
    exact ⟨s', h1, h3, h4⟩
  · intro hge
    obtain ⟨s', h1, _, h3, h4, _, h6⟩ := write_noFail_rotate now dat s hge hinv
    exact ⟨s', h1, h3, h4, h6⟩

/-- C1 witness: both branches evaluated on concrete writers (`c2State` is
not yet due at time 5; `dueState` is due at time 5). -/
theorem write_rotation_boundary_witness :
    ((5 : Int) < c2State.rotateAt) ∧
    (∃ s', TimeRotateWriter.write noFail 5 [7] c2State = some (s', 1, none) ∧
      s'.fs c2State.filename = some ((c2State.fs c2State.filename).getD [] ++ [7]) ∧
      (∀ p, p ≠ c2State.filename → s'.fs p = c2State.fs p)) ∧
    (dueState.rotateAt ≤ (5 : Int)) ∧
    (∃ s', TimeRotateWriter.write noFail 5 [7] dueState = some (s', 1, none) ∧
      s'.fs (TimeRotateWriter.archivePath dueState) =
        some ((dueState.fs dueState.filename).getD []) ∧
      s'.fs dueState.filename = some [7] ∧
      (∀ p, p ≠ dueState.filename → p ≠ TimeRotateWriter.archivePath dueState →
        s'.fs p = dueState.fs p)) :=
  ⟨by decide,
   (write_rotation_boundary 5 [7] c2State (fun _ => rfl)).1 (by decide),
   by decide,
   (write_rotation_boundary 5 [7] dueState (fun _ => rfl)).2 (by decide)⟩

/-- C4: the archive path equals `filename ++ "." ++` the timestamp
`rotateAt - intervalInSeconds` rendered as the 12-digit
year-month-day-hour-minute pattern, and after a successful rotation the
archive holds exactly the former active contents — also when a file already
occupied the archive path (it is deleted before the rename, so nothing is
merged). -/
theorem rotate_archive_naming (now : Int) (s : TimeRotateWriter) (c : Bytes)
    (hf : s.file = some ()) (hc : s.fs s.filename = some c) :
    TimeRotateWriter.archivePath s =
      s.filename ++ "." ++ formatArchiveTime (s.rotateAt - s.intervalInSeconds) ∧
    (formatArchiveTime (s.rotateAt - s.intervalInSeconds)).length = 12 ∧
    (∀ ch ∈ (formatArchiveTime (s.rotateAt - s.intervalInSeconds)).data,
      ch.isDigit = true) ∧
    ∃ s', TimeRotateWriter.rotate noFail now s = some (s', none) ∧
      s'.fs (TimeRotateWriter.archivePath s) = some c ∧
      s'.fs s.filename = some [] := by
  refine ⟨rfl, formatArchiveTime_length _, formatArchiveTime_digits _, ?_⟩
  obtain ⟨s', h1, _, _, _, _, _, h7, h8, _⟩ := rotate_noFail_spec now s c hf hc
  exact ⟨s', h1, h7, h8⟩

/-- C4 witness: rotation of `collideState`, whose archive path
`app.log.197001010000` is already occupied; the old occupant is removed and
the archive ends up holding exactly the former active contents `[9]`. -/
theorem rotate_archive_naming_witness :
    (collideState.file = some ()) ∧
    (collideState.fs collideState.filename = some [9]) ∧
    (TimeRotateWriter.archivePath collideState =
      collideState.filename ++ "." ++
        formatArchiveTime (collideState.rotateAt - collideState.intervalInSeconds) ∧
    (formatArchiveTime (collideState.rotateAt - collideState.intervalInSeconds)).length
        = 12 ∧
    (∀ ch ∈ (formatArchiveTime
        (collideState.rotateAt - collideState.intervalInSeconds)).data,
      ch.isDigit = true) ∧
    ∃ s', TimeRotateWriter.rotate noFail 60 collideState = some (s', none) ∧
      s'.fs (TimeRotateWriter.archivePath collideState) = some [9] ∧
      s'.fs collideState.filename = some []) :=
  ⟨rfl, rfl, rotate_archive_naming 60 collideState [9] rfl rfl⟩

/-- C5: when a rotation is due and any of its I/O steps (close, rename,
reopen) fails, the triggering `Write` aborts the rotation, reports zero
bytes written together with the error, and the caller's bytes appear in no
file: every file content after the call already existed before it. -/
theorem rotation_failure_aborts (env : Env) (now : Int) (dat : Bytes)
    (s : TimeRotateWriter)
    (hf : s.file = some ())
    (hdue : s.rotateAt ≤ now)
    (hfail : env.closeFails = true ∨ env.renameFails = true ∨ env.openFails = true) :
    ∃ s' e, TimeRotateWriter.write env now dat s = some (s', 0, some e) ∧
      (∀ p c2, s'.fs p = some c2 → ∃ q, s.fs q = some c2) := by
  have ho : TimeRotateWriter.openFile env s = .ok s := by
    unfold TimeRotateWriter.openFile
    rw [hf]
  have hsr : TimeRotateWriter.shouldRotate now s = true := by
    unfold TimeRotateWriter.shouldRotate
    exact decide_eq_true hdue
  have hmain : ∃ S e, TimeRotateWriter.rotate env now s = some (S, some e) ∧
      (∀ p c2, S.fs p = some c2 → ∃ q, s.fs q = some c2) := by
    unfold TimeRotateWriter.rotate
    rw [hf]
    dsimp only
    by_cases hc : env.closeFails = true
    · rw [if_pos hc]
      exact ⟨s, .closeErr, rfl, fun p c2 h => ⟨p, h⟩⟩
    · rw [if_neg hc]
      by_cases hr : env.renameFails = true
      · have hrename : TimeRotateWriter.renameFile env
            (TimeRotateWriter.statRemove s.fs (TimeRotateWriter.archivePath s))
            s.filename (TimeRotateWriter.archivePath s) = .error .renameErr := by
          unfold TimeRotateWriter.renameFile
          rw [if_pos hr]
        rw [hrename]
        exact ⟨_, .renameErr, rfl,
          fun p c2 h => ⟨p, statRemove_subset s.fs _ p c2 h⟩⟩
      · cases hsrc : TimeRotateWriter.statRemove s.fs (TimeRotateWriter.archivePath s)
            s.filename with
        | none =>
          have hrename : TimeRotateWriter.renameFile env
              (TimeRotateWriter.statRemove s.fs (TimeRotateWriter.archivePath s))
              s.filename (TimeRotateWriter.archivePath s) = .error .renameErr := by
            unfold TimeRotateWriter.renameFile
            rw [if_neg hr, hsrc]
          rw [hrename]
          exact ⟨_, .renameErr, rfl,
            fun p c2 h => ⟨p, statRemove_subset s.fs _ p c2 h⟩⟩
        | some content =>
          have hopen : env.openFails = true := by
            rcases hfail with h | h | h
            · exact absurd h hc
            · exact absurd h hr
            · exact h
          have hrename : TimeRotateWriter.renameFile env
              (TimeRotateWriter.statRemove s.fs (TimeRotateWriter.archivePath s))
              s.filename (TimeRotateWriter.archivePath s) =
              .ok (fun q => if q = TimeRotateWriter.archivePath s then some content
                   else if q = s.filename then none
                   else TimeRotateWriter.statRemove s.fs
                     (TimeRotateWriter.archivePath s) q) := by
            unfold TimeRotateWriter.renameFile
            rw [if_neg hr, hsrc]
          rw [hrename]
          dsimp only
          simp only [TimeRotateWriter.deleteExpiredFiles, ite_self]
          unfold TimeRotateWriter.openFile
          dsimp only
          rw [if_pos hopen]
          refine ⟨_, .openErr, rfl, ?_⟩
          intro p c2 h
          dsimp only at h
          by_cases hpd : p = TimeRotateWriter.archivePath s
          · rw [if_pos hpd] at h
            refine ⟨s.filename, ?_⟩
            rw [statRemove_subset s.fs _ s.filename content hsrc]
            exact congrArg some (Option.some.inj h)
          · rw [if_neg hpd] at h
            by_cases hpf : p = s.filename
            · rw [if_pos hpf] at h
              cases h
            · rw [if_neg hpf] at h
              exact ⟨p, statRemove_subset s.fs _ p c2 h⟩
  obtain ⟨S, e, hrotEq, hsub⟩ := hmain
  refine ⟨S, e, ?_, hsub⟩
  unfold TimeRotateWriter.write
  rw [ho]
  dsimp only
  rw [if_pos hsr, hrotEq]

/-- C5 witness: a forced `Close` failure during a due rotation of
`dueState`. -/
theorem rotation_failure_aborts_witness :
    (dueState.file = some ()) ∧
    (dueState.rotateAt ≤ (5 : Int)) ∧
    (failCloseEnv.closeFails = true ∨ failCloseEnv.renameFails = true ∨
      failCloseEnv.openFails = true) ∧
    (∃ s' e, TimeRotateWriter.write failCloseEnv 5 [7] dueState = some (s', 0, some e) ∧
      (∀ p c2, s'.fs p = some c2 → ∃ q, dueState.fs q = some c2)) :=
  ⟨rfl, by decide, Or.inl rfl,
   rotation_failure_aborts failCloseEnv 5 [7] dueState rfl (by decide) (Or.inl rfl)⟩

/-- C10: when the initial open fails, `NewTimeRotateWriter` still returns
the writer value together with the open error (its handle is nil), and a
later `Write` on that writer lazily re-opens the file and succeeds. -/
theorem new_open_failure_recovery (env : Env) (now now2 : Int) (f : String)
    (ivl bc : Int) (fs : Fs) (dat : Bytes)
    (henv : env.openFails = true)
    (hnow : now2 < TimeRotateWriter.calcNextRotateTime now (ivl * 60)) :
    (NewTimeRotateWriter env now f ivl bc fs).2 = some .openErr ∧
    (NewTimeRotateWriter env now f ivl bc fs).1.file = none ∧
    ∃ s', TimeRotateWriter.write noFail now2 dat (NewTimeRotateWriter env now f ivl bc fs).1
        = some (s', dat.length, none) ∧
      s'.file = some () ∧
      s'.fs f = some ((fs f).getD [] ++ dat) := by
  have hnew : NewTimeRotateWriter env now f ivl bc fs =
      ({ filename := f
         maxBackups := bc
         rotateInterval := ivl
         file := none
         rotateAt := TimeRotateWriter.calcNextRotateTime now (ivl * 60)
         intervalInSeconds := ivl * 60
         fs := fs }, some .openErr) := by
    unfold NewTimeRotateWriter TimeRotateWriter.openFile
    dsimp only
    rw [if_pos henv]
  rw [hnew]
  refine ⟨rfl, rfl, ?_⟩
  obtain ⟨s', h1, h2, h3, _⟩ := write_noFail_noRotate now2 dat
    { filename := f
      maxBackups := bc
      rotateInterval := ivl
      file := none
      rotateAt := TimeRotateWriter.calcNextRotateTime now (ivl * 60)
      intervalInSeconds := ivl * 60
      fs := fs } hnow
  exact ⟨s', h1, h2, h3⟩

/-- C10 witness: a failed initial open at time 30 followed by a successful
write at time 5 on the empty filesystem. -/
theorem new_open_failure_recovery_witness :
    (failOpenEnv.openFails = true) ∧
    ((5 : Int) < TimeRotateWriter.calcNextRotateTime 30 (1 * 60)) ∧
    ((NewTimeRotateWriter failOpenEnv 30 "app.log" 1 0 Fs.empty).2 = some .openErr ∧
     (NewTimeRotateWriter failOpenEnv 30 "app.log" 1 0 Fs.empty).1.file = none ∧
     ∃ s', TimeRotateWriter.write noFail 5 [7]
         (NewTimeRotateWriter failOpenEnv 30 "app.log" 1 0 Fs.empty).1
         = some (s', 1, none) ∧
       s'.file = some () ∧
       s'.fs "app.log" = some ((Fs.empty "app.log").getD [] ++ [7])) :=
  ⟨rfl, by decide,
   new_open_failure_recovery failOpenEnv 30 5 "app.log" 1 0 Fs.empty [7] rfl (by decide)⟩

end Log15
